import Mathlib

/-!
Shallow embedding of the visual-diff subsystem of `adbdevicemanager.py`
(`compare_screen_with_figma`, `_coarse_mae`, `_resolve_figma_token`) and
verification of the specification's claims about it.

Python floats are modelled by `ℚ` (the quantities involved are exact
ratios of machine integers), Python ints by `ℕ`/`ℤ`, `float("inf")` by
`⊤ : WithTop ℚ`, and `round(x, n)` by exact decimal round-half-even
(`pyRound`/`roundTo` below).  The effectful steps of the pipeline
(screen capture, Figma API call, image download, artifact writes) are
modelled by an `Env` record holding the values the external world
returns, plus an explicit trace of `Effect`s in program order.
-/

set_option maxHeartbeats 1000000

namespace AndroidMcp

/-- An RGB pixel: (red, green, blue) channel values. -/
abbrev Pixel := ℕ × ℕ × ℕ

/-- A decoded RGB bitmap: width, height and a (total) pixel lookup
function.  Mirrors a PIL `Image` after `.convert("RGB")`; the code only
ever reads `px x y` for `x < width`, `y < height`. -/
structure Img where
  width : ℕ
  height : ℕ
  px : ℕ → ℕ → Pixel

/-- All channel samples of an image are 8-bit values (what PIL's RGB
mode guarantees). -/
def Img.Valid (img : Img) : Prop :=
  ∀ x y, (img.px x y).1 ≤ 255 ∧ (img.px x y).2.1 ≤ 255 ∧ (img.px x y).2.2 ≤ 255

/-- A constant-colour image, used for concrete test inputs. -/
def imgConst (w h : ℕ) (p : Pixel) : Img := ⟨w, h, fun _ _ => p⟩

/-- Python's `abs(r1 - r2)` on channel values. -/
def adiff (a b : ℕ) : ℕ := Nat.dist a b

/-- `abs(r1-r2) + abs(g1-g2) + abs(b1-b2)` for one pixel pair
(lines 711 and 825-829 of the source). -/
def chanAbs (p q : Pixel) : ℕ :=
  adiff p.1 q.1 + adiff p.2.1 q.2.1 + adiff p.2.2 q.2.2

/-- `dr*dr + dg*dg + db*db` for one pixel pair (line 830). -/
def chanSq (p q : Pixel) : ℕ :=
  adiff p.1 q.1 ^ 2 + adiff p.2.1 q.2.1 ^ 2 + adiff p.2.2 q.2.2 ^ 2

/-- Python's `range(0, n, step)`: the indices below `n` hit by the
stride (as a finite set; the loop accumulations are order-independent
sums). -/
def strided (n step : ℕ) : Finset ℕ :=
  (Finset.range n).filter (fun i => i % step = 0)

/-- The `total` accumulator of `_coarse_mae` (lines 704-712): sum of
absolute per-channel differences over the stride-`step` subsample, with
the capture read at vertical offset `yOffset`. -/
def coarseTotal (fig emu : Img) (yOffset step : ℕ) : ℕ :=
  ∑ y ∈ strided fig.height step, ∑ x ∈ strided fig.width step,
    chanAbs (fig.px x y) (emu.px x (y + yOffset))

/-- The `count` accumulator of `_coarse_mae`: 3 channel samples per
visited pixel. -/
def coarseCount (fig : Img) (step : ℕ) : ℕ :=
  ∑ _y ∈ strided fig.height step, ∑ _x ∈ strided fig.width step, (3 : ℕ)

/-- `_coarse_mae` (lines 693-716): subsampled mean absolute channel
difference, `255.0` when no sample was visited. -/
def coarseMae (fig emu : Img) (yOffset step : ℕ) : ℚ :=
  if coarseCount fig step = 0 then 255
  else (coarseTotal fig emu yOffset step : ℚ) / (coarseCount fig step : ℚ)

/-- The offset-search loop of `compare_screen_with_figma`
(lines 782-789), in state-recursion form: `offsetLoop f n` is the
`(best_y, best_mae)` state after the iterations for offsets
`0, …, n-1`, starting from `(0, float("inf"))`; an iteration replaces
the state only on a strictly lower score. -/
def offsetLoop (f : ℕ → ℚ) : ℕ → ℕ × WithTop ℚ
  | 0 => (0, ⊤)
  | n + 1 =>
      let st := offsetLoop f n
      if ((f n : ℚ) : WithTop ℚ) < st.2 then (n, ((f n : ℚ) : WithTop ℚ)) else st

/-- The full offset search: offsets `0, …, maxOffset`
(`range(max_offset + 1)`), scored by `_coarse_mae` at stride 2. -/
def bestOffset (fig emuScaled : Img) (maxOffset : ℕ) : ℕ × WithTop ℚ :=
  offsetLoop (fun o => coarseMae fig emuScaled o 2) (maxOffset + 1)

/-- `emu_scaled.crop((0, best_y, target_w, best_y + target_h))`
(line 791). -/
def cropWindow (img : Img) (w h y0 : ℕ) : Img :=
  ⟨w, h, fun x y => img.px x (y + y0)⟩

/-- The pixel coordinates `(x, y)` visited by the full-resolution diff
pass (lines 819-853). -/
def pixelSet (w h : ℕ) : Finset (ℕ × ℕ) :=
  Finset.range w ×ˢ Finset.range h

/-- `d_avg = (dr + dg + db) / 3.0` at one pixel (line 832). -/
def dAvg (fig emu : Img) (p : ℕ × ℕ) : ℚ :=
  (chanAbs (fig.px p.1 p.2) (emu.px p.1 p.2) : ℚ) / 3

/-- The `sum_abs` accumulator (line 829). -/
def sumAbs (fig emu : Img) (w h : ℕ) : ℕ :=
  ∑ p ∈ pixelSet w h, chanAbs (fig.px p.1 p.2) (emu.px p.1 p.2)

/-- The `sum_sq` accumulator (line 830). -/
def sumSq (fig emu : Img) (w h : ℕ) : ℕ :=
  ∑ p ∈ pixelSet w h, chanSq (fig.px p.1 p.2) (emu.px p.1 p.2)

/-- A `diff_gt_*` counter (lines 833-838): number of pixels whose
`d_avg` exceeds the threshold. -/
def diffGtCount (fig emu : Img) (w h : ℕ) (thr : ℚ) : ℕ :=
  ((pixelSet w h).filter (fun p => thr < dAvg fig emu p)).card

/-- `mae = sum_abs / channels` with `channels = w * h * 3` (line 857). -/
def maeOf (fig emu : Img) (w h : ℕ) : ℚ :=
  (sumAbs fig emu w h : ℚ) / ((w * h * 3 : ℕ) : ℚ)

/-- The square of `rmse = (sum_sq / channels) ** 0.5` (line 858); the
reported root-mean-square error is the square root of this quantity. -/
def rmseSqOf (fig emu : Img) (w h : ℕ) : ℚ :=
  (sumSq fig emu w h : ℚ) / ((w * h * 3 : ℕ) : ℚ)

/-- `max(0.0, 100.0 - ((avg / 255.0) * 100.0))`, the similarity formula
used globally (line 859) and per cell/zone (lines 871, 882). -/
def similarityOf (avg : ℚ) : ℚ := max 0 (100 - avg / 255 * 100)

/-- Grid bucket index of a pixel (lines 840-842):
`cx = min(grid_cols - 1, x * grid_cols // target_w)`,
`cy = min(grid_rows - 1, y * grid_rows // target_h)`,
`idx = cy * grid_cols + cx`. -/
def cellIdx (gridCols gridRows w h : ℕ) (p : ℕ × ℕ) : ℕ :=
  let cx := min (gridCols - 1) (p.1 * gridCols / w)
  let cy := min (gridRows - 1) (p.2 * gridRows / h)
  cy * gridCols + cx

/-- The `cell_pixels[idx]` accumulator (line 844). -/
def cellPixels (gridCols gridRows w h idx : ℕ) : ℕ :=
  ((pixelSet w h).filter (fun p => cellIdx gridCols gridRows w h p = idx)).card

/-- The `cell_sums[idx]` accumulator (line 843). -/
def cellSum (fig emu : Img) (gridCols gridRows w h idx : ℕ) : ℚ :=
  ∑ p ∈ (pixelSet w h).filter (fun p => cellIdx gridCols gridRows w h p = idx),
    dAvg fig emu p

/-- The five hardcoded zone bands `(y0, y1)` (lines 811-817). -/
def zoneBands : List (ℚ × ℚ) :=
  [(0, 24/100), (24/100, 47/100), (47/100, 72/100), (72/100, 87/100), (87/100, 1)]

/-- The zone names, in band order. -/
def zoneNames : List String :=
  ["header", "cards", "gap_analysis", "strategy_band", "bottom_nav"]

/-- `zone["y0"] <= y_norm < zone["y1"]` for band `i` (an out-of-range
index yields the empty band). -/
def zoneMem (i : ℕ) (q : ℚ) : Prop :=
  (zoneBands.getD i (1, 0)).1 ≤ q ∧ q < (zoneBands.getD i (1, 0)).2

instance (i : ℕ) (q : ℚ) : Decidable (zoneMem i q) := by
  unfold zoneMem; infer_instance

/-- The zone loop with `break` (lines 846-850): the first band
containing `q`, if any. -/
def zoneOf (q : ℚ) : Option ℕ :=
  if zoneMem 0 q then some 0
  else if zoneMem 1 q then some 1
  else if zoneMem 2 q then some 2
  else if zoneMem 3 q then some 3
  else if zoneMem 4 q then some 4
  else none

/-- The `zone["count"]` accumulator for band `i`: pixels whose
normalized row `y / target_h` has band `i` as its first containing
band. -/
def zonePixels (w h i : ℕ) : ℕ :=
  ((pixelSet w h).filter (fun p => zoneOf ((p.2 : ℚ) / (h : ℚ)) = some i)).card

/-- The `zone["sum"]` accumulator for band `i`. -/
def zoneSum (fig emu : Img) (w h i : ℕ) : ℚ :=
  ∑ p ∈ (pixelSet w h).filter (fun p => zoneOf ((p.2 : ℚ) / (h : ℚ)) = some i),
    dAvg fig emu p

/-- Python's `round` to an integer: round-half-even. -/
def pyRound (q : ℚ) : ℤ :=
  if Int.fract q = 1/2 then 2 * round (q / 2) else round q

/-- Python's `round(q, n)`: decimal rounding, half to even. -/
def roundTo (n : ℕ) (q : ℚ) : ℚ :=
  (pyRound (q * 10 ^ n) : ℚ) / 10 ^ n

/-- One entry of the `grid_cells` list (lines 866-873). -/
structure GridCell where
  row : ℕ
  col : ℕ
  avgDiff : ℚ
  similarityPct : ℚ
deriving DecidableEq

/-- `avg = (cell_sums[idx] / cell_pixels[idx]) if cell_pixels[idx] else 0.0`
(line 865). -/
def cellAvg (fig emu : Img) (gridCols gridRows w h idx : ℕ) : ℚ :=
  if cellPixels gridCols gridRows w h idx = 0 then 0
  else cellSum fig emu gridCols gridRows w h idx / (cellPixels gridCols gridRows w h idx : ℚ)

/-- The `grid_cells` list (lines 861-873), row-major. -/
def gridCells (fig emu : Img) (gridCols gridRows w h : ℕ) : List GridCell :=
  (List.range gridRows).flatMap (fun row =>
    (List.range gridCols).map (fun col =>
      let avg := cellAvg fig emu gridCols gridRows w h (row * gridCols + col)
      ⟨row, col, roundTo 3 avg, roundTo 3 (similarityOf avg)⟩))

/-- One entry of the `zone_report` list (lines 875-884). -/
structure ZoneScore where
  name : String
  avgDiff : ℚ
  similarityPct : ℚ
deriving DecidableEq

/-- `avg = (zone["sum"] / zone["count"]) if zone["count"] else 0.0`
(line 877). -/
def zoneAvg (fig emu : Img) (w h i : ℕ) : ℚ :=
  if zonePixels w h i = 0 then 0
  else zoneSum fig emu w h i / (zonePixels w h i : ℚ)

/-- The `zone_report` list (lines 875-884). -/
def zoneReport (fig emu : Img) (w h : ℕ) : List ZoneScore :=
  (List.range 5).map (fun i =>
    ⟨zoneNames.getD i "",
     roundTo 3 (zoneAvg fig emu w h i),
     roundTo 3 (similarityOf (zoneAvg fig emu w h i))⟩)

/-- The comparator of `sorted(grid_cells, key=avgDiff, reverse=True)`:
`a` may precede `b` when `b.avgDiff ≤ a.avgDiff`. -/
def cellLE (a b : GridCell) : Bool := decide (b.avgDiff ≤ a.avgDiff)

/-- `sorted(grid_cells, key=avgDiff, reverse=True)[:12]` (line 886):
stable descending sort by the (rounded) `avgDiff` field, then the first
12 entries. -/
def worstGridCellsOf (fig emu : Img) (gridCols gridRows w h : ℕ) : List GridCell :=
  ((gridCells fig emu gridCols gridRows w h).mergeSort cellLE).take 12

/-- The five artifact file-name suffixes (lines 749-753). -/
def artifactNames : List String :=
  ["_emulator_raw.png", "_figma_node.png", "_emulator_scaled.png",
   "_emulator_aligned.png", "_heatmap.png"]

/-- The five artifact paths `out_dir / (run_id + name)` of one run. -/
def artifactPaths (outputDir runId : String) : List String :=
  artifactNames.map (fun n => outputDir ++ "/" ++ runId ++ n)

/-- A wall-clock instant, to sub-second resolution. -/
structure Timestamp where
  year : ℕ
  month : ℕ
  day : ℕ
  hour : ℕ
  minute : ℕ
  second : ℕ
  millisecond : ℕ
deriving DecidableEq

/-- Zero-padding to two digits, as `strftime` does. -/
def pad2 (n : ℕ) : String := if n < 10 then "0" ++ toString n else toString n

/-- `datetime.now().strftime("%Y%m%d_%H%M%S")` (line 747): the run
identifier keeps only whole seconds of the invocation instant. -/
def runIdOf (t : Timestamp) : String :=
  toString t.year ++ pad2 t.month ++ pad2 t.day ++ "_" ++
    pad2 t.hour ++ pad2 t.minute ++ pad2 t.second

/-- The distinguishable failures of `compare_screen_with_figma` that the
claims concern (each is a distinct `RuntimeError` message in the
source; `dimensionMismatch` carries the two dimensions interpolated
into the message at line 773). -/
inductive CompareError
  | emptyFileKey
  | emptyNodeId
  | nonPositiveScale
  | nonPositiveGrid
  | tokenRequired
  | dimensionMismatch (scaledH : ℤ) (targetH : ℕ)
deriving DecidableEq

/-- `True` exactly for the four pre-pipeline input-validation failures
(lines 735-742). -/
def CompareError.isValidation : CompareError → Prop
  | emptyFileKey => True
  | emptyNodeId => True
  | nonPositiveScale => True
  | nonPositiveGrid => True
  | _ => False

instance (e : CompareError) : Decidable e.isValidation := by
  unfold CompareError.isValidation; cases e <;> infer_instance

/-- The externally visible effects of one invocation, in program
order: device screenshot capture (which also pulls a file), the Figma
API call, the reference-image download, and the three image writes. -/
inductive Effect
  | makeOutputDir
  | captureScreen
  | figmaApiCall
  | downloadReference
  | writeScaled
  | writeAligned
  | writeHeatmap
deriving DecidableEq

/-- The external world of one invocation: the `FIGMA_TOKEN` environment
variable, the clock-derived run identifier, the bitmaps the capture and
fetch return, and the (opaque) LANCZOS resampler. -/
structure Env where
  envToken : Option String
  runId : String
  capture : Img
  figma : Img
  resize : Img → ℕ → ℕ → Img

/-- Python's `str.strip()`: remove leading and trailing whitespace. -/
def pyStrip (s : String) : String :=
  ⟨((s.data.dropWhile Char.isWhitespace).reverse.dropWhile Char.isWhitespace).reverse⟩

/-- `_resolve_figma_token` (lines 641-647):
`(figma_token or os.getenv("FIGMA_TOKEN") or "").strip()`, `none` when
the stripped result is empty (the `RuntimeError` branch). -/
def resolveFigmaToken (figmaToken envToken : Option String) : Option String :=
  let raw := if figmaToken.getD "" = "" then envToken.getD "" else figmaToken.getD ""
  let token := pyStrip raw
  if token = "" then none else some token

/-- The reported figma metadata block. -/
structure FigmaMeta where
  fileKey : String
  nodeId : String
  scale : ℚ
  width : ℕ
  height : ℕ
  useAbsoluteBounds : Bool

/-- The reported alignment block. -/
structure Alignment where
  scaledWidth : ℕ
  scaledHeight : ℤ
  bestYOffset : ℕ
  coarseMaeAtBestOffset : WithTop ℚ

/-- The reported global metrics block (`rmseSq` is the square of the
reported `rmse`). -/
structure Metrics where
  mae : ℚ
  rmseSq : ℚ
  similarityPct : ℚ
  pxDiffGt10Pct : ℚ
  pxDiffGt25Pct : ℚ
  pxDiffGt50Pct : ℚ

/-- The dictionary returned by `compare_screen_with_figma`
(lines 888-920). -/
structure Report where
  figma : FigmaMeta
  alignment : Alignment
  metrics : Metrics
  zones : List ZoneScore
  worstGridCells : List GridCell
  artifacts : List String

/-- `compare_screen_with_figma` (lines 718-920), with the external
world supplied by `env` and the performed effects traced in program
order.  Validation (lines 735-742) and token resolution (line 744)
both precede every effect; the dimension check (lines 769-774) aborts
after capture, API call and download but before any further write. -/
def compareScreenWithFigma (fileKey nodeId : String) (figmaToken : Option String)
    (scale : ℚ) (useAbsoluteBounds : Bool) (gridCols gridRows : ℤ)
    (outputDir : String) (env : Env) :
    Except CompareError Report × List Effect :=
  if pyStrip fileKey = "" then (.error .emptyFileKey, [])
  else if pyStrip nodeId = "" then (.error .emptyNodeId, [])
  else if scale ≤ 0 then (.error .nonPositiveScale, [])
  else if gridCols ≤ 0 ∨ gridRows ≤ 0 then (.error .nonPositiveGrid, [])
  else
    match resolveFigmaToken figmaToken env.envToken with
    | none => (.error .tokenRequired, [])
    | some _ =>
      let fig := env.figma
      let emuRaw := env.capture
      let targetW := fig.width
      let targetH := fig.height
      let scaledH : ℤ :=
        pyRound (((emuRaw.height * targetW : ℕ) : ℚ) / (emuRaw.width : ℚ))
      if scaledH < (targetH : ℤ) then
        (.error (.dimensionMismatch scaledH targetH),
         [.makeOutputDir, .captureScreen, .figmaApiCall, .downloadReference])
      else
        let emuScaled := env.resize emuRaw targetW scaledH.toNat
        let maxOffset := scaledH.toNat - targetH
        let best := bestOffset fig emuScaled maxOffset
        let emuAligned := cropWindow emuScaled targetW targetH best.1
        let cols := gridCols.toNat
        let rows := gridRows.toNat
        let m := maeOf fig emuAligned targetW targetH
        (.ok
          { figma := ⟨fileKey, nodeId, scale, targetW, targetH, useAbsoluteBounds⟩
            alignment := ⟨targetW, scaledH, best.1, best.2.map (roundTo 4)⟩
            metrics :=
              ⟨roundTo 4 m,
               rmseSqOf fig emuAligned targetW targetH,
               roundTo 4 (similarityOf m),
               roundTo 4 (((diffGtCount fig emuAligned targetW targetH 10 : ℕ) * 100 : ℚ)
                 / ((targetW * targetH : ℕ) : ℚ)),
               roundTo 4 (((diffGtCount fig emuAligned targetW targetH 25 : ℕ) * 100 : ℚ)
                 / ((targetW * targetH : ℕ) : ℚ)),
               roundTo 4 (((diffGtCount fig emuAligned targetW targetH 50 : ℕ) * 100 : ℚ)
                 / ((targetW * targetH : ℕ) : ℚ))⟩
            zones := zoneReport fig emuAligned targetW targetH
            worstGridCells := worstGridCellsOf fig emuAligned cols rows targetW targetH
            artifacts := artifactPaths outputDir env.runId },
         [.makeOutputDir, .captureScreen, .figmaApiCall, .downloadReference,
          .writeScaled, .writeAligned, .writeHeatmap])

/-! ### The offset-search loop (claim C1) -/

theorem offsetLoop_succ (f : ℕ → ℚ) (n : ℕ) :
    offsetLoop f (n + 1) =
      if ((f n : ℚ) : WithTop ℚ) < (offsetLoop f n).2
      then (n, ((f n : ℚ) : WithTop ℚ)) else offsetLoop f n := rfl

/-- Loop invariant of the offset search: after the iterations for
offsets `0, …, n`, the state holds an offset in range whose score is
recorded, minimal among all processed offsets, and strictly below the
score of every earlier offset. -/
theorem offsetLoop_spec (f : ℕ → ℚ) (n : ℕ) :
    (offsetLoop f (n + 1)).1 ≤ n ∧
    (offsetLoop f (n + 1)).2 = ((f (offsetLoop f (n + 1)).1 : ℚ) : WithTop ℚ) ∧
    (∀ o ≤ n, f (offsetLoop f (n + 1)).1 ≤ f o) ∧
    (∀ o < (offsetLoop f (n + 1)).1, f (offsetLoop f (n + 1)).1 < f o) := by
  induction n with
  | zero =>
      have h0 : offsetLoop f 1 = (0, ((f 0 : ℚ) : WithTop ℚ)) := by
        rw [offsetLoop_succ]
        simp [offsetLoop]
      rw [h0]
      refine ⟨le_refl 0, rfl, ?_, ?_⟩
      · intro o ho
        obtain rfl : o = 0 := Nat.le_zero.mp ho
        exact le_refl _
      · intro o ho
        exact absurd ho (Nat.not_lt_zero o)
  | succ n ih =>
      obtain ⟨h1, h2, h3, h4⟩ := ih
      rw [offsetLoop_succ]
      by_cases hlt : ((f (n + 1) : ℚ) : WithTop ℚ) < (offsetLoop f (n + 1)).2
      · rw [if_pos hlt]
        have hfl : f (n + 1) < f (offsetLoop f (n + 1)).1 := by
          rw [h2] at hlt
          exact_mod_cast hlt
        refine ⟨le_refl _, rfl, ?_, ?_⟩
        · intro o ho
          rcases eq_or_lt_of_le ho with rfl | ho'
          · exact le_refl _
          · exact le_of_lt (lt_of_lt_of_le hfl (h3 o (Nat.lt_succ_iff.mp ho')))
        · intro o ho
          exact lt_of_lt_of_le hfl (h3 o (Nat.lt_succ_iff.mp ho))
      · rw [if_neg hlt]
        have hge : f (offsetLoop f (n + 1)).1 ≤ f (n + 1) := by
          rw [h2] at hlt
          exact_mod_cast not_lt.mp hlt
        refine ⟨h1.trans (Nat.le_succ n), h2, ?_, h4⟩
        intro o ho
        rcases eq_or_lt_of_le ho with rfl | ho'
        · exact hge
        · exact h3 o (Nat.lt_succ_iff.mp ho')

/-- C1: in the vertical offset search of `compare_screen_with_figma`,
the chosen `bestYOffset` lies in `[0, maxOffset]`, attains the minimum
coarse score over that range, is the smallest offset doing so (every
smaller offset scores strictly worse, since only a strictly lower score
replaces the current best, starting from offset `0` with score
`+infinity`), and in particular is `0` whenever the scaled capture
height equals the reference height (`maxOffset = 0`). -/
theorem c1_bestYOffset_least_argmin (fig emuScaled : Img) (maxOffset : ℕ) :
    (bestOffset fig emuScaled maxOffset).1 ≤ maxOffset ∧
    (∀ o ≤ maxOffset,
      coarseMae fig emuScaled (bestOffset fig emuScaled maxOffset).1 2 ≤
        coarseMae fig emuScaled o 2) ∧
    (∀ o < (bestOffset fig emuScaled maxOffset).1,
      coarseMae fig emuScaled (bestOffset fig emuScaled maxOffset).1 2 <
        coarseMae fig emuScaled o 2) ∧
    (maxOffset = 0 → (bestOffset fig emuScaled maxOffset).1 = 0) := by
  obtain ⟨h1, _h2, h3, h4⟩ :=
    offsetLoop_spec (fun o => coarseMae fig emuScaled o 2) maxOffset
  refine ⟨h1, h3, h4, ?_⟩
  intro h
  subst h
  exact Nat.le_zero.mp h1

/-- A 2×2 reference image used as concrete test input. -/
def figW : Img := imgConst 2 2 (10, 20, 30)

/-- A 2×4 scaled-capture image used as concrete test input. -/
def emuW : Img := imgConst 2 4 (10, 20, 30)

theorem c1_bestYOffset_least_argmin_witness : (bestOffset figW emuW 0).1 = 0 :=
  (c1_bestYOffset_least_argmin figW emuW 0).2.2.2 rfl

/-! ### Totality and bounds of the coarse score (claim C10) -/

theorem strided_eq_empty_iff (n : ℕ) : strided n 2 = ∅ ↔ n = 0 := by
  constructor
  · intro h
    by_contra hn
    have : 0 ∈ strided n 2 := by
      simp [strided, Finset.mem_filter, Finset.mem_range, Nat.pos_of_ne_zero hn]
    simp [h] at this
  · rintro rfl
    simp [strided]

theorem coarseCount_eq_zero_iff (fig : Img) :
    coarseCount fig 2 = 0 ↔ fig.width = 0 ∨ fig.height = 0 := by
  unfold coarseCount
  rw [Finset.sum_const, Finset.sum_const, smul_eq_mul, smul_eq_mul]
  constructor
  · intro h
    rcases Nat.mul_eq_zero.mp h with h' | h'
    · right
      rw [← strided_eq_empty_iff]
      exact Finset.card_eq_zero.mp h'
    · rcases Nat.mul_eq_zero.mp h' with h'' | h''
      · left
        rw [← strided_eq_empty_iff]
        exact Finset.card_eq_zero.mp h''
      · exact absurd h'' (by norm_num)
  · intro h
    rcases h with h | h <;> rw [← strided_eq_empty_iff] at h <;> simp [h]

theorem chanAbs_le_765 {p q : Pixel}
    (hp : p.1 ≤ 255 ∧ p.2.1 ≤ 255 ∧ p.2.2 ≤ 255)
    (hq : q.1 ≤ 255 ∧ q.2.1 ≤ 255 ∧ q.2.2 ≤ 255) :
    chanAbs p q ≤ 765 := by
  obtain ⟨hp1, hp2, hp3⟩ := hp
  obtain ⟨hq1, hq2, hq3⟩ := hq
  simp only [chanAbs, adiff, Nat.dist]
  omega

theorem coarseTotal_le (fig emu : Img) (yOffset step : ℕ)
    (hf : fig.Valid) (he : emu.Valid) :
    coarseTotal fig emu yOffset step ≤ 255 * coarseCount fig step := by
  unfold coarseTotal coarseCount
  rw [Finset.mul_sum]
  apply Finset.sum_le_sum
  intro y _
  rw [Finset.mul_sum]
  apply Finset.sum_le_sum
  intro x _
  exact chanAbs_le_765 (hf x y) (he x (y + yOffset))

/-- C10: the coarse score function is total.  When the stride-2
subsample visits no pixel (reference width or height is `0`) it returns
`255.0` instead of dividing by zero; otherwise it returns the sum of
absolute per-channel differences over the visited pixels divided by the
number of channel samples compared; and for 8-bit images the result
always lies in `[0, 255]`. -/
theorem c10_coarseMae_total (fig emu : Img) (yOffset : ℕ) :
    (fig.width = 0 ∨ fig.height = 0 → coarseMae fig emu yOffset 2 = 255) ∧
    (0 < fig.width → 0 < fig.height →
      coarseMae fig emu yOffset 2 =
        (coarseTotal fig emu yOffset 2 : ℚ) / (coarseCount fig 2 : ℚ)) ∧
    (fig.Valid → emu.Valid →
      0 ≤ coarseMae fig emu yOffset 2 ∧ coarseMae fig emu yOffset 2 ≤ 255) := by
  refine ⟨?_, ?_, ?_⟩
  · intro h
    rw [coarseMae, if_pos ((coarseCount_eq_zero_iff fig).mpr h)]
  · intro hw hh
    rw [coarseMae, if_neg ?_]
    intro h
    rcases (coarseCount_eq_zero_iff fig).mp h with h' | h' <;> omega
  · intro hf he
    by_cases hc : coarseCount fig 2 = 0
    · rw [coarseMae, if_pos hc]
      norm_num
    · rw [coarseMae, if_neg hc]
      have hcpos : (0 : ℚ) < (coarseCount fig 2 : ℚ) := by
        exact_mod_cast Nat.pos_of_ne_zero hc
      constructor
      · positivity
      · rw [div_le_iff₀ hcpos]
        have := coarseTotal_le fig emu yOffset 2 hf he
        calc (coarseTotal fig emu yOffset 2 : ℚ)
            ≤ (255 * coarseCount fig 2 : ℕ) := by exact_mod_cast this
          _ = 255 * (coarseCount fig 2 : ℚ) := by push_cast; ring

theorem c10_coarseMae_total_witness :
    0 ≤ coarseMae figW emuW 1 2 ∧ coarseMae figW emuW 1 2 ≤ 255 :=
  (c10_coarseMae_total figW emuW 1).2.2
    (fun _ _ => by norm_num [figW, imgConst])
    (fun _ _ => by norm_num [emuW, imgConst])

/-! ### Basic facts about the pixel set and the rounding helpers -/

theorem mem_pixelSet {w h : ℕ} {p : ℕ × ℕ} :
    p ∈ pixelSet w h ↔ p.1 < w ∧ p.2 < h := by
  simp [pixelSet, Finset.mem_product]

theorem card_pixelSet (w h : ℕ) : (pixelSet w h).card = w * h := by
  simp [pixelSet]

theorem pyRound_intCast (z : ℤ) : pyRound (z : ℚ) = z := by
  unfold pyRound
  rw [Int.fract_intCast, if_neg (by norm_num), round_intCast]

theorem roundTo_natCast (n k : ℕ) : roundTo n (k : ℚ) = k := by
  unfold roundTo
  have h1 : (k : ℚ) * 10 ^ n = (((k * 10 ^ n : ℕ) : ℤ) : ℚ) := by push_cast; ring
  rw [h1, pyRound_intCast]
  push_cast
  rw [mul_div_assoc, div_self (by positivity), mul_one]

theorem roundTo_zero (n : ℕ) : roundTo n 0 = 0 := by
  simpa using roundTo_natCast n 0

/-! ### Zone bands: disjointness, coverage (claim C3) -/

theorem zoneMem_lt_five {i : ℕ} {q : ℚ} (h : zoneMem i q) : i < 5 := by
  by_contra hi
  push_neg at hi
  have hd : zoneBands.getD i (1, 0) = (1, 0) :=
    List.getD_eq_default _ _ (by simp only [zoneBands, List.length_cons, List.length_nil]; omega)
  rw [zoneMem, hd] at h
  obtain ⟨h1, h2⟩ := h
  simp at h1 h2
  linarith

theorem zoneMem_disjoint {i j : ℕ} {q : ℚ}
    (hi : zoneMem i q) (hj : zoneMem j q) : i = j := by
  have hi5 := zoneMem_lt_five hi
  have hj5 := zoneMem_lt_five hj
  interval_cases i <;> interval_cases j <;>
    first
      | rfl
      | (exfalso
         simp only [zoneMem, zoneBands, List.getD_cons_zero, List.getD_cons_succ] at hi hj
         linarith [hi.1, hi.2, hj.1, hj.2])

theorem zone_coverage {q : ℚ} (h0 : 0 ≤ q) (h1 : q < 1) :
    ∃ i, i < 5 ∧ zoneMem i q := by
  by_cases c0 : q < 24/100
  · exact ⟨0, by norm_num, by
      simp only [zoneMem, zoneBands, List.getD_cons_zero]
      exact ⟨h0, c0⟩⟩
  by_cases c1 : q < 47/100
  · exact ⟨1, by norm_num, by
      simp only [zoneMem, zoneBands, List.getD_cons_zero, List.getD_cons_succ]
      exact ⟨le_of_not_lt c0, c1⟩⟩
  by_cases c2 : q < 72/100
  · exact ⟨2, by norm_num, by
      simp only [zoneMem, zoneBands, List.getD_cons_zero, List.getD_cons_succ]
      exact ⟨le_of_not_lt c1, c2⟩⟩
  by_cases c3 : q < 87/100
  · exact ⟨3, by norm_num, by
      simp only [zoneMem, zoneBands, List.getD_cons_zero, List.getD_cons_succ]
      exact ⟨le_of_not_lt c2, c3⟩⟩
  · exact ⟨4, by norm_num, by
      simp only [zoneMem, zoneBands, List.getD_cons_zero, List.getD_cons_succ]
      exact ⟨le_of_not_lt c3, h1⟩⟩

theorem zoneOf_eq_some {q : ℚ} {i : ℕ} : zoneOf q = some i ↔ zoneMem i q := by
  constructor
  · intro h
    unfold zoneOf at h
    split_ifs at h with h0 h1 h2 h3 h4
    · obtain rfl : 0 = i := Option.some.inj h; exact h0
    · obtain rfl : 1 = i := Option.some.inj h; exact h1
    · obtain rfl : 2 = i := Option.some.inj h; exact h2
    · obtain rfl : 3 = i := Option.some.inj h; exact h3
    · obtain rfl : 4 = i := Option.some.inj h; exact h4
  · intro h
    have hu : ∀ j, zoneMem j q → j = i := fun j hj => zoneMem_disjoint hj h
    unfold zoneOf
    split_ifs with h0 h1 h2 h3 h4
    · exact congrArg some (hu 0 h0)
    · exact congrArg some (hu 1 h1)
    · exact congrArg some (hu 2 h2)
    · exact congrArg some (hu 3 h3)
    · exact congrArg some (hu 4 h4)
    · exfalso
      have hi5 := zoneMem_lt_five h
      interval_cases i <;> contradiction

/-- C3: zone bucket assignment is total and exclusive.  For a reference
of height `h > 0`, the normalized position `y / h` of every pixel row
`y < h` lies in exactly one of the five ordered half-open bands, the
zone loop (first containing band wins) selects precisely a containing
band, and consequently the five zone pixel counts sum to
`width × height`. -/
theorem c3_zone_partition (w h : ℕ) (hh : 0 < h) :
    (∀ y < h, ∃! i, zoneMem i ((y : ℚ) / (h : ℚ))) ∧
    (∀ y < h, ∀ i,
      (zoneOf ((y : ℚ) / (h : ℚ)) = some i ↔ zoneMem i ((y : ℚ) / (h : ℚ)))) ∧
    (∑ i ∈ Finset.range 5, zonePixels w h i) = w * h := by
  have hhq : (0 : ℚ) < (h : ℚ) := by exact_mod_cast hh
  have hnorm : ∀ y, y < h → 0 ≤ (y : ℚ) / (h : ℚ) ∧ (y : ℚ) / (h : ℚ) < 1 := by
    intro y hy
    constructor
    · positivity
    · rw [div_lt_one hhq]
      exact_mod_cast hy
  refine ⟨?_, ?_, ?_⟩
  · intro y hy
    obtain ⟨hq0, hq1⟩ := hnorm y hy
    obtain ⟨i, _, hi⟩ := zone_coverage hq0 hq1
    exact ⟨i, hi, fun j hj => zoneMem_disjoint hj hi⟩
  · intro y hy i
    exact zoneOf_eq_some
  · classical
    have hcov : ∀ p ∈ pixelSet w h,
        (fun p : ℕ × ℕ => (zoneOf ((p.2 : ℚ) / (h : ℚ))).getD 0) p ∈ Finset.range 5 := by
      intro p hp
      dsimp only
      obtain ⟨hq0, hq1⟩ := hnorm p.2 (mem_pixelSet.mp hp).2
      obtain ⟨i, hi5, hi⟩ := zone_coverage hq0 hq1
      rw [zoneOf_eq_some.mpr hi]
      simpa using hi5
    have key := Finset.card_eq_sum_card_fiberwise hcov
    rw [card_pixelSet] at key
    rw [key]
    apply Finset.sum_congr rfl
    intro i hi
    unfold zonePixels
    congr 1
    apply Finset.filter_congr
    intro p hp
    obtain ⟨hq0, hq1⟩ := hnorm p.2 (mem_pixelSet.mp hp).2
    obtain ⟨j, hj5, hj⟩ := zone_coverage hq0 hq1
    have hz : zoneOf ((p.2 : ℚ) / (h : ℚ)) = some j := zoneOf_eq_some.mpr hj
    rw [hz]
    simp

theorem c3_zone_partition_witness :
    (∑ i ∈ Finset.range 5, zonePixels 2 3 i) = 2 * 3 :=
  (c3_zone_partition 2 3 (by norm_num)).2.2

/-! ### Grid cells: partition (claim C4) -/

theorem cellIdx_lt {gridCols gridRows w h : ℕ} (hc : 0 < gridCols)
    (hr : 0 < gridRows) (p : ℕ × ℕ) :
    cellIdx gridCols gridRows w h p < gridRows * gridCols := by
  unfold cellIdx
  have h1 : min (gridCols - 1) (p.1 * gridCols / w) < gridCols := by
    have := min_le_left (gridCols - 1) (p.1 * gridCols / w)
    omega
  have h2 : min (gridRows - 1) (p.2 * gridRows / h) + 1 ≤ gridRows := by
    have := min_le_left (gridRows - 1) (p.2 * gridRows / h)
    omega
  calc min (gridRows - 1) (p.2 * gridRows / h) * gridCols +
        min (gridCols - 1) (p.1 * gridCols / w)
      < min (gridRows - 1) (p.2 * gridRows / h) * gridCols + gridCols := by omega
    _ = (min (gridRows - 1) (p.2 * gridRows / h) + 1) * gridCols := by ring
    _ ≤ gridRows * gridCols := Nat.mul_le_mul_right _ h2

/-- C4: grid cell bucket assignment partitions the pixel set exactly
once.  With bucket indices `col = min(gridCols-1, x*gridCols/width)`
and `row = min(gridRows-1, y*gridRows/height)`, every pixel of the
reference area lands in exactly one of the `gridRows × gridCols` cells,
and the cell pixel counts sum to `width × height`. -/
theorem c4_grid_partition (gridCols gridRows w h : ℕ)
    (hc : 0 < gridCols) (hr : 0 < gridRows) :
    (∀ p ∈ pixelSet w h, ∃! idx, idx < gridRows * gridCols ∧
      cellIdx gridCols gridRows w h p = idx) ∧
    (∑ idx ∈ Finset.range (gridRows * gridCols),
      cellPixels gridCols gridRows w h idx) = w * h := by
  constructor
  · intro p _
    exact ⟨cellIdx gridCols gridRows w h p, ⟨cellIdx_lt hc hr p, rfl⟩,
      fun j hj => hj.2.symm⟩
  · classical
    have hcov : ∀ p ∈ pixelSet w h,
        cellIdx gridCols gridRows w h p ∈ Finset.range (gridRows * gridCols) := by
      intro p _
      simpa using cellIdx_lt hc hr p
    have key := Finset.card_eq_sum_card_fiberwise hcov
    rw [card_pixelSet] at key
    rw [key]
    rfl

theorem c4_grid_partition_witness :
    (∑ idx ∈ Finset.range (2 * 3),
      cellPixels 3 2 4 5 idx) = 4 * 5 :=
  (c4_grid_partition 3 2 4 5 (by norm_num) (by norm_num)).2

/-! ### Identical images give a perfect score (claim C5) -/

theorem chanAbs_self (p : Pixel) : chanAbs p p = 0 := by
  simp [chanAbs, adiff, Nat.dist_self]

/-- C5: for identical reference and aligned images the diff pass yields
`meanAbsoluteError = 0`, zero squared error (hence
`rootMeanSquareError = sqrt 0 = 0`), `similarityPercent = 100`, all
three threshold counters (hence fractions) equal to `0`, and
`averageDelta = 0` for every produced grid cell and zone entry. -/
theorem c5_identical_images (fig emu : Img) (gridCols gridRows w h : ℕ)
    (heq : ∀ p ∈ pixelSet w h, fig.px p.1 p.2 = emu.px p.1 p.2) :
    maeOf fig emu w h = 0 ∧
    rmseSqOf fig emu w h = 0 ∧
    similarityOf (maeOf fig emu w h) = 100 ∧
    diffGtCount fig emu w h 10 = 0 ∧
    diffGtCount fig emu w h 25 = 0 ∧
    diffGtCount fig emu w h 50 = 0 ∧
    (∀ c ∈ gridCells fig emu gridCols gridRows w h, c.avgDiff = 0) ∧
    (∀ z ∈ zoneReport fig emu w h, z.avgDiff = 0) := by
  have habs : sumAbs fig emu w h = 0 := by
    apply Finset.sum_eq_zero
    intro p hp
    rw [heq p hp]
    exact chanAbs_self _
  have hsq : sumSq fig emu w h = 0 := by
    apply Finset.sum_eq_zero
    intro p hp
    rw [heq p hp]
    simp [chanSq, adiff, Nat.dist_self]
  have hdavg : ∀ p ∈ pixelSet w h, dAvg fig emu p = 0 := by
    intro p hp
    rw [dAvg, heq p hp, chanAbs_self]
    norm_num
  have hmae : maeOf fig emu w h = 0 := by
    rw [maeOf, habs]
    norm_num
  have hcount : ∀ thr : ℚ, 0 ≤ thr → diffGtCount fig emu w h thr = 0 := by
    intro thr hthr
    unfold diffGtCount
    rw [Finset.card_eq_zero]
    rw [Finset.filter_eq_empty_iff]
    intro p hp
    rw [hdavg p hp]
    exact not_lt.mpr hthr
  refine ⟨hmae, by rw [rmseSqOf, hsq]; norm_num, by rw [hmae]; norm_num [similarityOf],
    hcount 10 (by norm_num), hcount 25 (by norm_num), hcount 50 (by norm_num), ?_, ?_⟩
  · intro c hc
    unfold gridCells at hc
    rw [List.mem_flatMap] at hc
    obtain ⟨row, _, hc⟩ := hc
    rw [List.mem_map] at hc
    obtain ⟨col, _, rfl⟩ := hc
    have hzero : cellSum fig emu gridCols gridRows w h (row * gridCols + col) = 0 := by
      apply Finset.sum_eq_zero
      intro p hp
      exact hdavg p (Finset.mem_filter.mp hp).1
    have havg : cellAvg fig emu gridCols gridRows w h (row * gridCols + col) = 0 := by
      unfold cellAvg
      rw [hzero]
      simp
    simpa [havg] using roundTo_zero 3
  · intro z hz
    unfold zoneReport at hz
    rw [List.mem_map] at hz
    obtain ⟨i, _, rfl⟩ := hz
    have hzero : zoneSum fig emu w h i = 0 := by
      apply Finset.sum_eq_zero
      intro p hp
      exact hdavg p (Finset.mem_filter.mp hp).1
    have havg : zoneAvg fig emu w h i = 0 := by
      unfold zoneAvg
      rw [hzero]
      simp
    simpa [havg] using roundTo_zero 3

/-- A 2×3 image used as concrete test input for the identical-image
claim. -/
def figEq : Img := imgConst 2 3 (7, 8, 9)

theorem c5_identical_images_witness :
    maeOf figEq figEq 2 3 = 0 ∧ similarityOf (maeOf figEq figEq 2 3) = 100 :=
  ⟨(c5_identical_images figEq figEq 2 2 2 3 (fun _ _ => rfl)).1,
   (c5_identical_images figEq figEq 2 2 2 3 (fun _ _ => rfl)).2.2.1⟩

/-! ### Constant per-channel delta (claim C6) -/

/-- C6: when the two images differ by the same absolute per-channel
delta `k ≤ 255` at every pixel and channel, the diff pass yields
`meanAbsoluteError = k` exactly (so also after the report's 4-decimal
rounding) and `similarityPercent = 100 - (k/255 × 100)`; in particular
a uniform delta of `(5,5,5)` gives a similarity above 90. -/
theorem c6_uniform_delta (fig emu : Img) (w h k : ℕ)
    (hw : 0 < w) (hh : 0 < h) (hk : k ≤ 255)
    (hd : ∀ p ∈ pixelSet w h,
      adiff (fig.px p.1 p.2).1 (emu.px p.1 p.2).1 = k ∧
      adiff (fig.px p.1 p.2).2.1 (emu.px p.1 p.2).2.1 = k ∧
      adiff (fig.px p.1 p.2).2.2 (emu.px p.1 p.2).2.2 = k) :
    maeOf fig emu w h = k ∧
    roundTo 4 (maeOf fig emu w h) = k ∧
    similarityOf (maeOf fig emu w h) = 100 - (k : ℚ) / 255 * 100 ∧
    (k = 5 → 90 < similarityOf (maeOf fig emu w h)) := by
  have hs : sumAbs fig emu w h = (w * h) * (3 * k) := by
    unfold sumAbs
    calc ∑ p ∈ pixelSet w h, chanAbs (fig.px p.1 p.2) (emu.px p.1 p.2)
        = ∑ _p ∈ pixelSet w h, 3 * k := by
          apply Finset.sum_congr rfl
          intro p hp
          obtain ⟨h1, h2, h3⟩ := hd p hp
          rw [chanAbs, h1, h2, h3]
          ring
      _ = (w * h) * (3 * k) := by
          rw [Finset.sum_const, card_pixelSet, smul_eq_mul]
  have hwh : (((w * h * 3 : ℕ)) : ℚ) ≠ 0 := by
    have : 0 < w * h * 3 := by positivity
    exact_mod_cast Nat.pos_iff_ne_zero.mp this
  have hmae : maeOf fig emu w h = k := by
    rw [maeOf, hs, div_eq_iff hwh]
    push_cast
    ring
  have hsim : similarityOf (maeOf fig emu w h) = 100 - (k : ℚ) / 255 * 100 := by
    rw [hmae, similarityOf, max_eq_right]
    have hk' : (k : ℚ) ≤ 255 := by exact_mod_cast hk
    linarith
  refine ⟨hmae, by rw [hmae]; exact roundTo_natCast 4 k, hsim, ?_⟩
  intro h5
  rw [hsim, h5]
  norm_num

/-- A 2×2 reference image at constant RGB `(10,10,10)`. -/
def figK : Img := imgConst 2 2 (10, 10, 10)

/-- A 2×2 aligned capture at constant RGB `(5,5,5)`: uniform
per-channel delta 5 against `figK`. -/
def emuK : Img := imgConst 2 2 (5, 5, 5)

theorem c6_uniform_delta_witness :
    maeOf figK emuK 2 2 = 5 ∧ 90 < similarityOf (maeOf figK emuK 2 2) :=
  ⟨(c6_uniform_delta figK emuK 2 2 5 (by norm_num) (by norm_num) (by norm_num)
      (fun _ _ => ⟨rfl, rfl, rfl⟩)).1,
   (c6_uniform_delta figK emuK 2 2 5 (by norm_num) (by norm_num) (by norm_num)
      (fun _ _ => ⟨rfl, rfl, rfl⟩)).2.2.2 rfl⟩

/-! ### The worst-cells selection (claim C7) -/

theorem cellLE_trans : ∀ a b c : GridCell,
    cellLE a b = true → cellLE b c = true → cellLE a c = true := by
  intro a b c hab hbc
  simp only [cellLE, decide_eq_true_eq] at *
  exact le_trans hbc hab

theorem cellLE_total : ∀ a b : GridCell, (cellLE a b || cellLE b a) = true := by
  intro a b
  simp only [cellLE, Bool.or_eq_true, decide_eq_true_eq]
  exact le_total _ _

theorem gridCells_length (fig emu : Img) (gridCols gridRows w h : ℕ) :
    (gridCells fig emu gridCols gridRows w h).length = gridRows * gridCols := by
  unfold gridCells
  simp [List.flatMap, List.length_flatten, List.map_map, Function.comp_def,
    List.map_const', List.sum_replicate, smul_eq_mul, Nat.mul_comm]

/-- C7: the `worstGridCells` sequence of the returned report is sorted
in descending order of `avgDiff`, contains at most
`min(12, gridCols × gridRows)` elements (exactly that many), and every
element is drawn from the full grid-cell list. -/
theorem c7_worst_cells (fig emu : Img) (gridCols gridRows w h : ℕ) :
    List.Sorted (fun a b : GridCell => b.avgDiff ≤ a.avgDiff)
      (worstGridCellsOf fig emu gridCols gridRows w h) ∧
    (worstGridCellsOf fig emu gridCols gridRows w h).length =
      min 12 (gridCols * gridRows) ∧
    ∀ c ∈ worstGridCellsOf fig emu gridCols gridRows w h,
      c ∈ gridCells fig emu gridCols gridRows w h := by
  have hsorted :=
    List.sorted_mergeSort cellLE_trans cellLE_total
      (gridCells fig emu gridCols gridRows w h)
  refine ⟨?_, ?_, ?_⟩
  · unfold worstGridCellsOf
    apply List.Pairwise.sublist (List.take_sublist 12 _)
    apply hsorted.imp
    intro a b hab
    simpa [cellLE, decide_eq_true_eq] using hab
  · unfold worstGridCellsOf
    rw [List.length_take, List.length_mergeSort, gridCells_length, Nat.mul_comm]
  · intro c hc
    unfold worstGridCellsOf at hc
    exact List.mem_mergeSort.mp (List.take_subset 12 _ hc)

theorem c7_worst_cells_witness :
    (worstGridCellsOf figK emuK 2 2 2 2).length = min 12 (2 * 2) :=
  (c7_worst_cells figK emuK 2 2 2 2).2.1

/-! ### Artifact paths of concurrent runs (claim C9) -/

theorem string_append_component_ne (d r1 r2 s t : String) (hr : r1 ≠ r2)
    (hst : s = t ∨ (¬ s.data <:+ t.data ∧ ¬ t.data <:+ s.data)) :
    d ++ "/" ++ r1 ++ s ≠ d ++ "/" ++ r2 ++ t := by
  intro h
  have hd := congrArg String.data h
  simp only [String.data_append, List.append_assoc] at hd
  have h2 : r1.data ++ s.data = r2.data ++ t.data :=
    List.append_cancel_left (List.append_cancel_left hd)
  rcases hst with rfl | ⟨hs, ht⟩
  · exact hr (String.ext (List.append_cancel_right h2))
  · have hsuf : s.data <:+ r2.data ++ t.data := h2 ▸ ⟨r1.data, rfl⟩
    have htsuf : t.data <:+ r2.data ++ t.data := ⟨r2.data, rfl⟩
    rcases List.suffix_or_suffix_of_suffix hsuf htsuf with h' | h'
    · exact hs h'
    · exact ht h'

/-- Two invocation instants in the same wall-clock second: distinct
times, but `strftime("%Y%m%d_%H%M%S")` yields the same run id. -/
def tsA : Timestamp := ⟨2025, 1, 1, 12, 0, 0, 0⟩

/-- A second instant 500 ms after `tsA`. -/
def tsB : Timestamp := ⟨2025, 1, 1, 12, 0, 0, 500⟩

/-- C9 counterexample: two distinct (concurrent) invocation instants in
the same second produce the same timestamp-derived run identifier, so
the two runs' five artifact paths coincide — the runs DO write to the
same files, contrary to the claim that the run identifier makes the
paths of any two invocations distinct. -/
theorem c9_counterexample : tsA ≠ tsB ∧
    runIdOf tsA = runIdOf tsB ∧
    artifactPaths ".mcp_pixel_diff" (runIdOf tsA) =
      artifactPaths ".mcp_pixel_diff" (runIdOf tsB) :=
  ⟨by decide, rfl, rfl⟩

/-- C9 (amended): for two invocations with the same output directory
whose timestamp-derived run identifiers differ (they start in different
seconds), every artifact path of one run differs from every artifact
path of the other, so the runs never write to the same file. -/
theorem c9_distinct_runIds_distinct_paths (outputDir r1 r2 : String)
    (hne : r1 ≠ r2) :
    ∀ p ∈ artifactPaths outputDir r1, ∀ q ∈ artifactPaths outputDir r2, p ≠ q := by
  intro p hp q hq
  simp only [artifactPaths, artifactNames, List.mem_map, List.mem_cons,
    List.not_mem_nil, or_false] at hp hq
  obtain ⟨np, hnp, rfl⟩ := hp
  obtain ⟨nq, hnq, rfl⟩ := hq
  rcases hnp with rfl | rfl | rfl | rfl | rfl <;>
    rcases hnq with rfl | rfl | rfl | rfl | rfl <;>
      refine string_append_component_ne _ _ _ _ _ hne ?_ <;>
        first
          | exact Or.inl rfl
          | exact Or.inr ⟨by decide, by decide⟩

theorem c9_distinct_runIds_distinct_paths_witness :
    runIdOf tsA ≠ "20250101_120001" ∧
    ("/tmp/out" ++ "/" ++ runIdOf tsA ++ "_heatmap.png" ≠
      "/tmp/out" ++ "/" ++ "20250101_120001" ++ "_heatmap.png") :=
  ⟨by decide,
   c9_distinct_runIds_distinct_paths "/tmp/out" (runIdOf tsA) "20250101_120001"
    (by decide) _ (by simp [artifactPaths, artifactNames]) _
    (by simp [artifactPaths, artifactNames])⟩

/-! ### Fail-fast validation and token resolution (claim C8) -/

/-- C8: `compare_screen_with_figma` validates its inputs before any
capture, fetch or write.  With an empty (after stripping) file or node
identifier, a non-positive scale, or a non-positive grid dimension, it
fails with a validation error and an empty effect trace (no screenshot,
no network call, no file written); and when validation passes but no
auth token resolves (no argument, no environment fallback), it fails
with the token-required error, again with an empty effect trace, hence
before any network call. -/
theorem c8_validation_before_effects (fileKey nodeId : String)
    (figmaToken : Option String) (scale : ℚ) (uab : Bool)
    (gridCols gridRows : ℤ) (outputDir : String) (env : Env) :
    ((pyStrip fileKey = "" ∨ pyStrip nodeId = "" ∨ scale ≤ 0 ∨ gridCols ≤ 0 ∨ gridRows ≤ 0) →
      (∃ e, (compareScreenWithFigma fileKey nodeId figmaToken scale uab
          gridCols gridRows outputDir env).1 = .error e ∧ e.isValidation) ∧
      (compareScreenWithFigma fileKey nodeId figmaToken scale uab
          gridCols gridRows outputDir env).2 = []) ∧
    ((¬ pyStrip fileKey = "") → (¬ pyStrip nodeId = "") → (¬ scale ≤ 0) →
      (¬ gridCols ≤ 0) → (¬ gridRows ≤ 0) →
      resolveFigmaToken figmaToken env.envToken = none →
      (compareScreenWithFigma fileKey nodeId figmaToken scale uab
          gridCols gridRows outputDir env).1 = .error .tokenRequired ∧
      (compareScreenWithFigma fileKey nodeId figmaToken scale uab
          gridCols gridRows outputDir env).2 = []) := by
  constructor
  · intro hdisj
    unfold compareScreenWithFigma
    by_cases h1 : pyStrip fileKey = ""
    · rw [if_pos h1]
      exact ⟨⟨.emptyFileKey, rfl, trivial⟩, rfl⟩
    rw [if_neg h1]
    by_cases h2 : pyStrip nodeId = ""
    · rw [if_pos h2]
      exact ⟨⟨.emptyNodeId, rfl, trivial⟩, rfl⟩
    rw [if_neg h2]
    by_cases h3 : scale ≤ 0
    · rw [if_pos h3]
      exact ⟨⟨.nonPositiveScale, rfl, trivial⟩, rfl⟩
    rw [if_neg h3]
    by_cases h4 : gridCols ≤ 0 ∨ gridRows ≤ 0
    · rw [if_pos h4]
      exact ⟨⟨.nonPositiveGrid, rfl, trivial⟩, rfl⟩
    · exfalso
      rcases hdisj with h | h | h | h | h
      · exact h1 h
      · exact h2 h
      · exact h3 h
      · exact h4 (Or.inl h)
      · exact h4 (Or.inr h)
  · intro h1 h2 h3 h4 h5 htok
    unfold compareScreenWithFigma
    rw [if_neg h1, if_neg h2, if_neg h3, if_neg (not_or.mpr ⟨h4, h5⟩), htok]
    exact ⟨rfl, rfl⟩

/-- An environment for the token-failure witness: no token anywhere. -/
def envNoTok : Env :=
  ⟨none, "20250101_120000", imgConst 4 8 (1, 2, 3), imgConst 4 4 (1, 2, 3),
   fun i _ _ => i⟩

theorem c8_validation_before_effects_witness :
    ((compareScreenWithFigma "" "1:2" none 1 true 6 10 ".mcp_pixel_diff"
        envNoTok).2 = []) ∧
    ((compareScreenWithFigma "file" "1:2" none 1 true 6 10 ".mcp_pixel_diff"
        envNoTok).1 = .error .tokenRequired) :=
  ⟨((c8_validation_before_effects "" "1:2" none 1 true 6 10 ".mcp_pixel_diff"
      envNoTok).1 (Or.inl rfl)).2,
   ((c8_validation_before_effects "file" "1:2" none 1 true 6 10 ".mcp_pixel_diff"
      envNoTok).2 (by decide) (by decide) (by norm_num) (by decide) (by decide)
      rfl).1⟩

/-! ### The dimension check (claim C2) -/

/-- C2: once validation and token resolution succeed, the run fails
with the dimension error exactly when the rescaled capture height
`round(capture.height × reference.width / capture.width)` is strictly
less than the reference height; the error carries both the scaled
height and the reference height (the two values interpolated into the
message), and no report is produced in that case.  Otherwise the run
produces a report. -/
theorem c2_dimension_check (fileKey nodeId : String)
    (figmaToken : Option String) (scale : ℚ) (uab : Bool)
    (gridCols gridRows : ℤ) (outputDir : String) (env : Env)
    (h1 : ¬ pyStrip fileKey = "") (h2 : ¬ pyStrip nodeId = "") (h3 : ¬ scale ≤ 0)
    (h4 : ¬ gridCols ≤ 0) (h5 : ¬ gridRows ≤ 0)
    (tok : String) (htok : resolveFigmaToken figmaToken env.envToken = some tok) :
    ((pyRound (((env.capture.height * env.figma.width : ℕ) : ℚ) /
        (env.capture.width : ℚ)) < (env.figma.height : ℤ)) →
      (compareScreenWithFigma fileKey nodeId figmaToken scale uab
          gridCols gridRows outputDir env).1 =
        .error (.dimensionMismatch
          (pyRound (((env.capture.height * env.figma.width : ℕ) : ℚ) /
            (env.capture.width : ℚ)))
          env.figma.height)) ∧
    (¬ (pyRound (((env.capture.height * env.figma.width : ℕ) : ℚ) /
        (env.capture.width : ℚ)) < (env.figma.height : ℤ)) →
      ∃ r : Report,
        (compareScreenWithFigma fileKey nodeId figmaToken scale uab
            gridCols gridRows outputDir env).1 = .ok r) := by
  constructor
  · intro hdim
    unfold compareScreenWithFigma
    rw [if_neg h1, if_neg h2, if_neg h3, if_neg (not_or.mpr ⟨h4, h5⟩), htok]
    dsimp only
    rw [if_pos hdim]
  · intro hdim
    unfold compareScreenWithFigma
    rw [if_neg h1, if_neg h2, if_neg h3, if_neg (not_or.mpr ⟨h4, h5⟩), htok]
    dsimp only
    rw [if_neg hdim]
    exact ⟨_, rfl⟩

/-- An environment realizing the spec's dimension-error scenario:
reference (Figma export) 50×300, capture 100×120, so the capture
rescales to height `round(120 × 50 / 100) = 60 < 300`. -/
def envC2 : Env :=
  ⟨none, "20250101_120000", imgConst 100 120 (0, 0, 0),
   imgConst 50 300 (0, 0, 0), fun i _ _ => i⟩

theorem pyRound_envC2 :
    pyRound (((envC2.capture.height * envC2.figma.width : ℕ) : ℚ) /
      (envC2.capture.width : ℚ)) = 60 := by
  have h : (((envC2.capture.height * envC2.figma.width : ℕ) : ℚ) /
      (envC2.capture.width : ℚ)) = ((60 : ℤ) : ℚ) := by
    norm_num [envC2, imgConst]
  rw [h, pyRound_intCast]

theorem c2_dimension_check_witness :
    (compareScreenWithFigma "file" "1:2" (some "tok") 1 true 6 10
        ".mcp_pixel_diff" envC2).1 = .error (.dimensionMismatch 60 300) := by
  have h := (c2_dimension_check "file" "1:2" (some "tok") 1 true 6 10
      ".mcp_pixel_diff" envC2 (by decide) (by decide) (by norm_num) (by decide)
      (by decide) "tok" rfl).1
  rw [pyRound_envC2] at h
  exact h (by decide)

end AndroidMcp
